import Mathlib

/-!
Verification development for the xfetcher download-and-extract pipeline
(`src/xfetcher/downloader.py` and `src/xfetcher/utils.py`).

The Python code is shallowly embedded: pure helpers become Lean functions on
`Nat`/`String`/`List Char`; the filesystem is an explicit state (`FSt`);
the HTTP transport, prompt and ZIP codec are abstracted as inputs, exactly
at the interface boundary the code uses them; Python exceptions become an
explicit error type (`PyErr`), with the `try`/`except`/`finally`
replacement semantics of CPython modelled explicitly.
-/

namespace XFetcher

/-! ## Character-list utilities

Python string operations used by the source, modelled on `List Char`
(`str.startswith`, `in` (substring), `str.endswith`, `str.lower` restricted
to ASCII, which is all the source compares against). -/

/-- `isPre p l` is Python `l.startswith(p)` on character lists. -/
def isPre : List Char → List Char → Bool
  | [], _ => true
  | _ :: _, [] => false
  | a :: ps, b :: ls => a == b && isPre ps ls

/-- `hasSub p l` is Python `p in l` (substring test) on character lists:
some suffix of `l` has `p` as a prefix. -/
def hasSub (p : List Char) : List Char → Bool
  | [] => isPre p []
  | c :: cs => isPre p (c :: cs) || hasSub p cs

/-- `dropPre p l` removes the prefix `p` from `l`, failing if `p` is not a
prefix of `l`. -/
def dropPre : List Char → List Char → Option (List Char)
  | [], l => some l
  | _ :: _, [] => none
  | a :: ps, b :: ls => if a == b then dropPre ps ls else none

/-- ASCII lowering of one character, the fragment of Python `str.lower`
relevant to the source (which only compares against ASCII literals). -/
def lowerChar (c : Char) : Char :=
  if 65 ≤ c.toNat && c.toNat ≤ 90 then Char.ofNat (c.toNat + 32) else c

/-- Does a REVERSED character list start with `p`,`i`,`z`,`.` — i.e. does
the original list end with `".zip"`? -/
def revZipMatch : List Char → Bool
  | a :: b :: c :: d :: _ => a == 'p' && b == 'i' && c == 'z' && d == '.'
  | _ => false

/-- Python `name.lower().endswith(".zip")` (line 217 of downloader.py). -/
def zipLikeChars (l : List Char) : Bool :=
  revZipMatch ((l.map lowerChar).reverse)

/-- `zipLike s` is Python `s.lower().endswith(".zip")`. -/
def zipLike (s : String) : Bool := zipLikeChars s.data

/-! ## The path-safety validator (`Downloader._is_safe_path`, lines 79-96)

The source computes `Path(path).parts` (POSIX pathlib semantics: split on
`/`, drop empty and `"."` components, with a root part `"/"` or `"//"`
for absolute paths — CPython `_PosixFlavour.splitroot` keeps `"//"` only
for exactly two leading slashes) and rejects the path if any part starts
with `\` or `/`, contains `".."`, or contains `":"`. -/

/-- Split a character list on `/`, keeping empty segments (they are
filtered afterwards, as pathlib does). -/
def splitSegs : List Char → List (List Char)
  | [] => [[]]
  | c :: cs =>
    if c == '/' then [] :: splitSegs cs
    else
      match splitSegs cs with
      | [] => [[c]]
      | s :: ss => (c :: s) :: ss

/-- pathlib keeps a split component iff it is nonempty and not `"."`. -/
def keepSeg (s : List Char) : Bool := !(s.isEmpty) && !(s == ['.'])

/-- The non-root components of `Path(p).parts`. -/
def segments (l : List Char) : List (List Char) :=
  (splitSegs l).filter keepSeg

/-- Number of leading `/` characters. -/
def leadSlashes : List Char → Nat
  | [] => 0
  | c :: cs => if c == '/' then leadSlashes cs + 1 else 0

/-- The root part of `Path(p).parts`: none for relative paths, `"//"` for
exactly two leading slashes, `"/"` otherwise (CPython `splitroot`). -/
def rootParts (l : List Char) : List (List Char) :=
  if leadSlashes l == 0 then []
  else if leadSlashes l == 2 then [['/', '/']]
  else [['/']]

/-- `Path(p).parts` for a POSIX path, as character lists. -/
def posixParts (l : List Char) : List (List Char) :=
  rootParts l ++ segments l

/-- The per-part test of `_is_safe_path`: the part starts with a backslash,
starts with a forward slash, contains `".."`, or contains `":"`. -/
def badPart (part : List Char) : Bool :=
  isPre ['\\'] part || isPre ['/'] part ||
    hasSub ['.', '.'] part || hasSub [':'] part

/-- `Downloader._is_safe_path` (downloader.py lines 79-96). -/
def _is_safe_path (path : String) : Bool :=
  !((posixParts path.data).any badPart)

/-! ## Path helpers (`pathlib` fragments used by the source) -/

/-- `dir / name` for the relative names the source joins. -/
def joinPath (dir nm : String) : String :=
  String.mk (dir.data ++ '/' :: nm.data)

/-- Final path component (`Path(p).name` for the slash-free or
file-like paths the source uses it on). -/
def baseNameChars (l : List Char) : List Char :=
  ((l.reverse.takeWhile (fun c => !(c == '/'))).reverse)

/-- Index of the last `.` in a name, if any. -/
def lastDotIdx : List Char → Option Nat
  | [] => none
  | c :: cs =>
    match lastDotIdx cs with
    | some i => some (i + 1)
    | none => if c == '.' then some 0 else none

/-- `Path(p).stem` on a name: strip the last extension unless the last dot
is the first or last character (CPython `PurePath.stem`). -/
def stemChars (nm : List Char) : List Char :=
  match lastDotIdx nm with
  | none => nm
  | some i => if 0 < i && i < nm.length - 1 then nm.take i else nm

/-- `Path(p).stem` (used at downloader.py lines 195 and 219). -/
def stem (p : String) : String :=
  String.mk (stemChars (baseNameChars p.data))

/-! ## Archive and filesystem model

A ZIP archive is a list of entries (a zipfile `namelist` in order); a file
entry carries its content, which may itself be the byte image of a valid
ZIP archive (`zipData`, the case `zipfile.is_zipfile` accepts) or plain
bytes (`is_zipfile` false; this also stands for a missing/unreadable file,
since CPython `is_zipfile` swallows `OSError` and returns `False`).
Directory entries (names ending in `/` in a real namelist) carry no
content. -/

mutual
/-- Content of a file on disk: raw bytes, or bytes forming a valid ZIP
archive with the given entry list. -/
inductive Content where
  | bytes : List Nat → Content
  | zipData : Entries → Content

/-- The ordered entry list of an archive (`zip_ref.namelist()` order). -/
inductive Entries where
  | nil : Entries
  | consFile : String → Content → Entries → Entries
  | consDir : String → Entries → Entries
end

/-- Filesystem state: regular files (path with content, later writes win)
and directories, all as absolute path strings. -/
structure FSt where
  files : List (String × Content)
  dirs : List String

/-- Python `path.exists()` restricted to regular files. -/
def fileExists (fs : FSt) (p : String) : Bool :=
  fs.files.any (fun e => e.1 == p)

/-- Directory presence. -/
def dirExists (fs : FSt) (p : String) : Bool :=
  fs.dirs.any (fun q => q == p)

/-- Content of the regular file at `p`, if present. -/
def fsGetFile (fs : FSt) (p : String) : Option Content :=
  (fs.files.find? (fun e => e.1 == p)).map (fun e => e.2)

/-- Write (create or overwrite) the regular file at `p`. -/
def fsAddFile (fs : FSt) (p : String) (c : Content) : FSt :=
  { fs with files := fs.files.filter (fun e => !(e.1 == p)) ++ [(p, c)] }

/-- `path.unlink(missing_ok=True)`: remove the file at `p` if present. -/
def fsUnlink (fs : FSt) (p : String) : FSt :=
  { fs with files := fs.files.filter (fun e => !(e.1 == p)) }

/-- `path.mkdir(parents=True, exist_ok=True)` (parent bookkeeping is not
needed by any claim, so only `p` itself is recorded). -/
def fsMkdir (fs : FSt) (p : String) : FSt :=
  if dirExists fs p then fs else { fs with dirs := fs.dirs ++ [p] }

/-! ## Errors

The Python exceptions the embedded code can surface, including the
exceptions CPython itself raises when a `finally` block fails
(`AttributeError`, `UnboundLocalError`): in CPython, an exception raised
while a `finally` clause runs replaces the exception in flight. -/

/-- Exceptions surfaced by the embedded code. -/
inductive PyErr where
  | invalidInput
  | fileExistsError (path : String)
  | downloadCancelled
  | connectionError
  | timeoutError
  | transferFailed
  | attributeError (attr : String)
  | unboundLocalError (name : String)
  | notAZip (path : String)
  | dangerousPaths (offenders : List String)
  | wrapped (cause : PyErr)
  deriving DecidableEq

/-! ## The streaming downloader (`Downloader.download_file`, lines 98-169)

The HTTP transport (`requests`) is abstracted at its interface: the one
`requests.get` call either raises (connection error / timeout / other
`RequestException`), or yields a response with a status-error flag
(`raise_for_status`), a `content-length` value, and a body that is either
delivered completely (final file content) or fails mid-transfer after some
partial content has been written. The interactive confirmation prompt is
the operator's answer string. -/

/-- Body outcome of a streamed response: the chunk loop either completes,
writing `c`, or raises after the partial content `w` has been written. -/
inductive BodyOutcome where
  | complete : Content → BodyOutcome
  | midConnDrop : Content → BodyOutcome
  | midTimeout : Content → BodyOutcome
  | midOther : Content → BodyOutcome

/-- The response object `requests.get` returns when it does not raise. -/
structure Response where
  httpError : Bool
  contentLength : Nat
  body : BodyOutcome

/-- Outcome of the `requests.get` call itself. -/
inductive NetOutcome where
  | connErrorAtGet
  | timeoutAtGet
  | otherErrAtGet
  | got : Response → NetOutcome

/-- The external collaborators of one `download_file` call: the filename
the URL resolver yields, the transport behaviour, and the operator's
answer to the size-confirmation prompt. -/
structure DlEnv where
  resolvedName : String
  net : NetOutcome
  promptAnswer : String

/-- Session state (`Downloader.__init__`, lines 52-67). -/
structure Downloader where
  save_dir : String
  keep_zip : Bool

/-- Python `if not filename: filename = get_filename_from_url(url)`. -/
def resolveFilename (env : DlEnv) (fn : Option String) : String :=
  match fn with
  | none => env.resolvedName
  | some f => if f == "" then env.resolvedName else f

/-- Python `answer.lower() == "y"` (ASCII model of `str.lower`). -/
def answerIsYes (s : String) : Bool := s.data.map lowerChar == ['y']

set_option linter.unusedVariables false in
/-- `Downloader.download_file` (downloader.py lines 98-169). Returns the
final filesystem and either the downloaded path or the exception that
propagates to the caller. Notable faithful details:

* the size-confirmation branch rebinds `response` to the `input(...)`
  string (line 135), so whichever exception the `try` body then raises,
  the `finally: response.close()` (line 167) raises `AttributeError`
  (`str` has no `close`), which replaces it; in the accepting case the
  destination file has already been created empty before
  `response.iter_content` fails, and it stays on disk;
* if `requests.get` itself raises, `response` was never assigned, so the
  `finally` raises `UnboundLocalError`, replacing the taxonomy error the
  `except` clause raised;
* `chunk_size` is passed to the transport only and never validated. -/
def download_file (d : Downloader) (env : DlEnv) (fn : Option String)
    (chunk_size : Int) (fs : FSt) : FSt × Except PyErr String :=
  let filename := resolveFilename env fn
  let file_path := joinPath d.save_dir filename
  if fileExists fs file_path then
    (fs, .error (.fileExistsError file_path))
  else
    match env.net with
    | .connErrorAtGet => (fs, .error (.unboundLocalError "response"))
    | .timeoutAtGet => (fs, .error (.unboundLocalError "response"))
    | .otherErrAtGet => (fs, .error (.unboundLocalError "response"))
    | .got r =>
      if r.httpError then
        (fs, .error .transferFailed)
      else if 1024 * 1024 * 1024 < r.contentLength then
        if answerIsYes env.promptAnswer then
          (fsAddFile fs file_path (.bytes []), .error (.attributeError "close"))
        else
          (fs, .error (.attributeError "close"))
      else
        match r.body with
        | .complete c => (fsAddFile fs file_path c, .ok file_path)
        | .midConnDrop w =>
          (fsUnlink (fsAddFile fs file_path w) file_path, .error .connectionError)
        | .midTimeout w =>
          (fsUnlink (fsAddFile fs file_path w) file_path, .error .timeoutError)
        | .midOther w =>
          (fsUnlink (fsAddFile fs file_path w) file_path, .error .transferFailed)

/-! ## The recursive archive extractor (`Downloader.extract_zip`, lines 171-229)

Faithful structure of the source:

* `is_zipfile` false (plain bytes, or no file at the path) raises
  `ValueError("Not a valid ZIP file: ...")` before anything else;
* the destination directory is created (`mkdir(parents=True,
  exist_ok=True)`, line 199) before the safety check;
* the offending-path list is computed over the whole `namelist()` before
  any entry is extracted, and a nonempty list raises
  `ValueError("Potentially dangerous paths in zip: ...")` (lines 203-207);
* each entry is extracted in namelist order; an entry whose name ends in
  `".zip"` case-insensitively is recursively extracted to
  `extract_path / Path(member).stem`, and the nested archive file is
  unlinked in a `finally` (unless `keep_zip`), whether the nested
  extraction succeeded or raised (lines 216-224); a raised nested error
  then propagates, aborting the remaining entries;
* only on full success is the top-level archive unlinked (unless
  `keep_zip`, lines 226-227) and the destination returned.

The nested recursive call re-reads from disk the very content that was
just extracted, so the model recurses on that content value directly. -/

/-- `zip_ref.namelist()` of an entry list. -/
def entryNames : Entries → List String
  | .nil => []
  | .consFile n _ rest => n :: entryNames rest
  | .consDir n rest => n :: entryNames rest

/-- The offending entry paths: `[name for name in namelist if not
_is_safe_path(name)]` (lines 203-205). -/
def offending (es : Entries) : List String :=
  (entryNames es).filter (fun n => !(_is_safe_path n))

mutual
/-- Open and process one archive image `c` located at `zp`, extracting to
`ep`: the body of `extract_zip` after the destination is resolved. -/
def extractFromContent (keep : Bool) (c : Content) (zp ep : String)
    (fs : FSt) : FSt × Except PyErr String :=
  match c with
  | .bytes _ => (fs, .error (.notAZip zp))
  | .zipData es =>
    let fs1 := fsMkdir fs ep
    let offs := offending es
    if offs.isEmpty then
      match extractEntries keep es ep fs1 with
      | (fs2, some e) => (fs2, .error e)
      | (fs2, none) =>
        ((if keep then fs2 else fsUnlink fs2 zp), .ok ep)
    else
      (fs1, .error (.dangerousPaths offs))

/-- The extraction loop over the namelist (lines 212-224), threading the
filesystem; stops with the raised error if a nested extraction fails. -/
def extractEntries (keep : Bool) (es : Entries) (ep : String)
    (fs : FSt) : FSt × Option PyErr :=
  match es with
  | .nil => (fs, none)
  | .consDir nm rest =>
    extractEntries keep rest ep (fsMkdir fs (joinPath ep nm))
  | .consFile nm c rest =>
    let p := joinPath ep nm
    let fs1 := fsAddFile fs p c
    if zipLike nm then
      match extractFromContent keep c p (joinPath ep (stem nm)) fs1 with
      | (fs2, r) =>
        let fs3 := if keep then fs2 else fsUnlink fs2 p
        match r with
        | .ok _ => extractEntries keep rest ep fs3
        | .error e => (fs3, some e)
    else
      extractEntries keep rest ep fs1
end

/-- `Downloader.extract_zip` (downloader.py lines 171-229). -/
def extract_zip (d : Downloader) (fs : FSt) (zp : String)
    (ep : Option String) : FSt × Except PyErr String :=
  match fsGetFile fs zp with
  | none => (fs, .error (.notAZip zp))
  | some c =>
    let dest := match ep with
      | none => joinPath d.save_dir (stem zp)
      | some p => p
    extractFromContent d.keep_zip c zp dest fs

/-! ## Size formatting (`Downloader._humanize_size`, lines 319-335)

The source initialises `current_size = float(size)`, halves it by 1024 per
unit, but formats the ORIGINAL `size` in every return
(`f"{size:.1f}{unit}"`). Division of a float by 1024 is exact and, for
Python ints, `f"{size:.1f}"` prints the exact integer followed by `.0`,
so the unit choice and output are exactly reproduced over `Nat`. -/

/-- Python `f"{size:.1f}"` for a non-negative int `size`. -/
def formatSize1 (n : Nat) : String := toString n ++ ".0"

/-- `Downloader._humanize_size` (lines 319-335), bug included: every
branch formats the original `size`, not the divided `current_size`. -/
def _humanize_size (size : Nat) : String :=
  if size < 1024 then formatSize1 size ++ "B"
  else if size < 1024 * 1024 then formatSize1 size ++ "KB"
  else if size < 1024 * 1024 * 1024 then formatSize1 size ++ "MB"
  else if size < 1024 * 1024 * 1024 * 1024 then formatSize1 size ++ "GB"
  else formatSize1 size ++ "TB"

/-! ## Manifest (`_format_extracted_files`, lines 231-253) and orchestrator
(`download_and_extract`, lines 255-294) -/

/-- Byte size the manifest reports for a file (`stat().st_size`); the
encoded size of an archive image is abstracted as 0, no claim depends on
archive byte sizes. -/
def contentSize : Content → Nat
  | .bytes b => b.length
  | .zipData _ => 0

/-- Lexicographic order on code points, the sort key `sorted` uses for
the paths involved. -/
def lexLe : List Char → List Char → Bool
  | [], _ => true
  | _ :: _, [] => false
  | a :: as, b :: bs =>
    if a.toNat < b.toNat then true
    else if b.toNat < a.toNat then false
    else lexLe as bs

/-- Insertion step of a simple stable sort. -/
def insertSorted (x : String) : List String → List String
  | [] => [x]
  | y :: ys => if lexLe x.data y.data then x :: y :: ys else y :: insertSorted x ys

/-- `sorted` on path strings. -/
def sortStrs : List String → List String
  | [] => []
  | x :: xs => insertSorted x (sortStrs xs)

/-- `extract_dir.rglob("*")` restricted to regular files: every file path
strictly below `dir`. -/
def rglobFiles (fs : FSt) (dir : String) : List String :=
  (fs.files.map (fun e => e.1)).filter
    (fun p => isPre (dir.data ++ ['/']) p.data)

/-- One line of `_format_extracted_files`: `f"{relative_path}
({self._humanize_size(size)})"`. -/
def formatOne (fs : FSt) (dir : String) (p : String) : String :=
  let rel := match dropPre (dir.data ++ ['/']) p.data with
    | some r => String.mk r
    | none => p
  let sz := match fsGetFile fs p with
    | some c => contentSize c
    | none => 0
  rel ++ " (" ++ _humanize_size sz ++ ")"

/-- `Downloader._format_extracted_files` applied to
`list(extract_dir.rglob("*"))` as the orchestrator does (lines 276-279). -/
def formatExtracted (fs : FSt) (dir : String) : List String :=
  (sortStrs (rglobFiles fs dir)).map (formatOne fs dir)

/-- `Downloader.download_and_extract` (downloader.py lines 255-294).
Faithful rollback detail: the `except` block tests `"zip_path" in
locals()` and `"extract_dir" in locals()`. `zip_path` is bound only once
`download_file` has returned, and `extract_dir` only once `extract_zip`
has returned — so when extraction itself raises, only the archive is
unlinked and the partially populated extraction directory is left behind;
`shutil.rmtree` is reachable only through a failure of the
manifest/printing stage, which involves no collaborator that can fail in
this model. Every failure is re-raised wrapped (`Exception("Failed to
download and extract: ...") from e`). -/
def download_and_extract (d : Downloader) (env : DlEnv)
    (ep : Option String) (fs : FSt) :
    FSt × Except PyErr (String × List String) :=
  match download_file d env none 8192 fs with
  | (fs1, .error e) => (fs1, .error (.wrapped e))
  | (fs1, .ok zip_path) =>
    match extract_zip d fs1 zip_path ep with
    | (fs2, .error e) => (fsUnlink fs2 zip_path, .error (.wrapped e))
    | (fs2, .ok extract_dir) =>
      (fs2, .ok (extract_dir, formatExtracted fs2 extract_dir))

/-! ## Session teardown (`Downloader.__exit__`, lines 73-77)

`self.save_dir.glob("*.zip")` matches every directory entry of `save_dir`
itself (not subdirectories) whose name ends in `".zip"` — pathlib's glob
is case-sensitive on POSIX and does not special-case dotfiles — and each
match is unlinked with `missing_ok=True`. The model ranges over the
regular files of the state (a directory named `*.zip` would make
`unlink` raise; no claim involves one). -/

/-- Membership of path `p` in `Path(dir).glob("*.zip")`: directly inside
`dir` and named `*.zip`. -/
def isDirectZipChild (dir p : String) : Bool :=
  match dropPre (dir.data ++ ['/']) p.data with
  | none => false
  | some nm => !(nm.contains '/') && revZipMatch nm.reverse

/-- `Downloader.__exit__` (lines 73-77). -/
def exitDownloader (d : Downloader) (fs : FSt) : FSt :=
  if d.keep_zip then fs
  else
    { fs with files := fs.files.filter (fun e => !(isDirectZipChild d.save_dir e.1)) }

/-! ## Supporting lemmas about the filesystem model -/

theorem fsMkdir_files (fs : FSt) (p : String) : (fsMkdir fs p).files = fs.files := by
  unfold fsMkdir
  split <;> rfl

theorem fileExists_fsMkdir (fs : FSt) (q p : String) :
    fileExists (fsMkdir fs q) p = fileExists fs p := by
  unfold fileExists
  rw [fsMkdir_files]

theorem fileExists_fsUnlink_self (fs : FSt) (p : String) :
    fileExists (fsUnlink fs p) p = false := by
  simp only [fileExists, fsUnlink]
  induction fs.files with
  | nil => rfl
  | cons e t ih =>
    by_cases h : e.1 == p
    · simp [h, ih]
    · simp only [h] at ih ⊢
      simp only [Bool.not_false, List.filter_cons_of_pos, List.any_cons, h, Bool.false_or]
      exact ih

theorem fileExists_fsUnlink_imp {fs : FSt} {q p : String}
    (h : fileExists (fsUnlink fs q) p = true) :
    fileExists fs p = true ∧ p ≠ q := by
  simp only [fileExists, fsUnlink, List.any_eq_true] at h ⊢
  obtain ⟨e, hmem, hp⟩ := h
  have hmem2 := List.mem_filter.mp hmem
  refine ⟨⟨e, hmem2.1, hp⟩, ?_⟩
  intro hpq
  have h1 : e.1 = p := by simpa using hp
  have h2 : ¬(e.1 = q) := by simpa using hmem2.2
  exact h2 (h1.trans hpq)

theorem fileExists_fsAddFile_imp {fs : FSt} {q p : String} {c : Content}
    (h : fileExists (fsAddFile fs q c) p = true) :
    p = q ∨ fileExists fs p = true := by
  simp only [fileExists, fsAddFile, List.any_eq_true] at h ⊢
  obtain ⟨e, hmem, hp⟩ := h
  rcases List.mem_append.mp hmem with hl | hr
  · exact .inr ⟨e, (List.mem_filter.mp hl).1, hp⟩
  · left
    have he : e = (q, c) := by simpa using hr
    subst he
    have : q = p := by simpa using hp
    exact this.symm

theorem dropPre_self_append (l r : List Char) : dropPre l (l ++ r) = some r := by
  induction l with
  | nil => rfl
  | cons a t ih => simp [dropPre, ih]

/-! ## Shared concrete scenarios used by the claim theorems and witnesses -/

/-- A fresh session whose target directory `downloads` exists. -/
def fs0 : FSt := ⟨[], ["downloads"]⟩

/-- A session with retention policy discard. -/
def d0 : Downloader := ⟨"downloads", false⟩

/-- An archive whose second entry is named like an archive but holds plain
bytes, so its nested extraction fails after the first entry was already
extracted. -/
def archBadNested : Entries :=
  .consFile "ok.txt" (.bytes [1]) (.consFile "bad.zip" (.bytes [2]) .nil)

/-- Transport serving `archBadNested` as a small valid ZIP completely. -/
def envBadNested : DlEnv :=
  ⟨"data.zip", .got ⟨false, 100, .complete (.zipData archBadNested)⟩, "y"⟩

/-! ## Claims -/

/-- Claim C1 (code bug demonstration). The claim states that on ANY
failure of `download_and_extract` — including a failure inside the
extraction step — both the downloaded archive and any partially created
extraction directory are removed before the wrapped error is raised. The
code removes the extraction directory only when `extract_zip` RETURNED
(the rollback tests `"extract_dir" in locals()`, and `extract_dir` is
bound only on success), so when extraction fails partway the partially
populated extraction directory survives. Here: downloading succeeds,
extraction of `ok.txt` succeeds, the nested extraction of `bad.zip`
fails; afterwards the wrapped error carries the original cause and the
downloaded archive is gone (as claimed), but `downloads/data/ok.txt` and
the directory `downloads/data` are still on disk (contradicting the
claim). -/
theorem c1_failed_extraction_leaves_partial_dir :
    (download_and_extract d0 envBadNested none fs0).2
      = .error (.wrapped (.notAZip "downloads/data/bad.zip")) ∧
    fileExists (download_and_extract d0 envBadNested none fs0).1
      "downloads/data.zip" = false ∧
    fileExists (download_and_extract d0 envBadNested none fs0).1
      "downloads/data/ok.txt" = true ∧
    dirExists (download_and_extract d0 envBadNested none fs0).1
      "downloads/data" = true :=
  ⟨rfl, rfl, rfl, rfl⟩

/-- Claim C4 (code bug demonstration). The claim states the size string
equals the byte count scaled by the chosen power of 1024, one decimal
place, e.g. 2048 bytes render as `"2.0KB"`. `_humanize_size` divides its
loop variable but formats the ORIGINAL `size` in every branch
(`f"{size:.1f}{unit}"`, line 333), so 2048 bytes render as
`"2048.0KB"`: the unit is chosen per the claim, the number is not
scaled. -/
theorem c4_humanize_size_not_scaled :
    _humanize_size 2048 = "2048.0KB" ∧
    _humanize_size 2048 ≠ "2.0KB" ∧
    _humanize_size 512 = "512.0B" ∧
    _humanize_size 1048576 = "1048576.0MB" :=
  ⟨rfl, by decide, rfl, rfl⟩

/-- Transport announcing a body over 1 GiB; the operator answers `n`. -/
def envDecline : DlEnv :=
  ⟨"big.zip", .got ⟨false, 1073741825, .complete (.bytes [])⟩, "n"⟩

/-- Claim C5 (code bug demonstration). The claim states that declining
the over-1-GiB confirmation fails with `DownloadCancelled` and no other
error replaces it. The size-gate branch rebinds `response` to the
`input(...)` string (line 135), so after `DownloadCancelled` is raised
the `finally: response.close()` (line 167) raises
`AttributeError("'str' object has no attribute 'close'")`, which
replaces the `DownloadCancelled` in flight: the caller sees
`AttributeError`. No write happens (the filesystem is unchanged), as the
claim says, but the surfaced error is not the Cancelled error. -/
theorem c5_declined_prompt_raises_attribute_error :
    download_file d0 envDecline none 8192 fs0
      = (fs0, .error (.attributeError "close")) ∧
    (PyErr.attributeError "close") ≠ PyErr.downloadCancelled :=
  ⟨rfl, by decide⟩

/-- Transport failing at connect time with `requests.ConnectionError`. -/
def envConnFail : DlEnv := ⟨"f.zip", .connErrorAtGet, "y"⟩

/-- Transport dropping the connection mid-transfer after one chunk. -/
def envMidDrop : DlEnv :=
  ⟨"f.zip", .got ⟨false, 100, .midConnDrop (.bytes [7])⟩, "y"⟩

/-- Claim C6 (code bug demonstration). The claim states every transport
error is mapped to its taxonomy error (`ConnectionFailure` for
connection failures, whether at connect time or mid-transfer). When
`requests.get` itself raises, `response` was never assigned, so after
the `except` clause raises the mapped `ConnectionError`, the
`finally: response.close()` (line 167) raises `UnboundLocalError`, which
replaces it: the caller sees `UnboundLocalError`, not the taxonomy
error (first conjunct). The mid-transfer part of the claim does hold:
the partial file is deleted and `ConnectionError` propagates (second
conjunct — the final filesystem equals the initial one, no file at the
destination). -/
theorem c6_connect_failure_raises_unbound_local :
    download_file d0 envConnFail none 8192 fs0
      = (fs0, .error (.unboundLocalError "response")) ∧
    download_file d0 envMidDrop none 8192 fs0
      = (fs0, .error .connectionError) :=
  ⟨rfl, rfl⟩

/-- Claim C7. If the computed destination path already exists, the
download fails with `FileExistsError` carrying that path, and the
filesystem is returned exactly as it was: nothing is written, the
pre-existing file (in particular its content) is untouched, and no
network step runs. -/
theorem c7_existing_destination_untouched (d : Downloader) (env : DlEnv)
    (fn : Option String) (cs : Int) (fs : FSt)
    (h : fileExists fs (joinPath d.save_dir (resolveFilename env fn)) = true) :
    download_file d env fn cs fs
      = (fs, .error (.fileExistsError (joinPath d.save_dir (resolveFilename env fn)))) := by
  unfold download_file
  simp [h]

/-- Witness for C7 at a concrete state: the destination
`downloads/f.zip` already holds a file; the call fails with
`FileExistsError` and returns the state unchanged. -/
theorem c7_witness :
    download_file d0 envConnFail none 8192
        ⟨[("downloads/f.zip", .bytes [9])], ["downloads"]⟩
      = (⟨[("downloads/f.zip", .bytes [9])], ["downloads"]⟩,
         .error (.fileExistsError "downloads/f.zip")) :=
  c7_existing_destination_untouched d0 envConnFail none 8192
    ⟨[("downloads/f.zip", .bytes [9])], ["downloads"]⟩ (by decide)

/-- Transport delivering a small body completely. -/
def envSmallOk : DlEnv :=
  ⟨"f.txt", .got ⟨false, 100, .complete (.bytes [1, 2])⟩, "y"⟩

/-- Counterexample to claim C8 as stated: a call with `chunk_size = 0`
does NOT fail with `InvalidInput` — it succeeds outright (the source
never validates `chunk_size`; lines 98-100 are only the signature with
its default, and the value is merely passed to
`response.iter_content`). -/
theorem c8_counterexample_zero_chunk_succeeds :
    download_file d0 envSmallOk none 0 fs0
      = (fsAddFile fs0 "downloads/f.txt" (.bytes [1, 2]), .ok "downloads/f.txt") :=
  rfl

/-- Claim C8, amended: `download_file` never validates `chunk_size`; a
call with a zero or negative chunk size behaves exactly like the same
call with any other chunk size, and never fails with `InvalidInput`. -/
theorem c8_chunk_size_never_validated (d : Downloader) (env : DlEnv)
    (fn : Option String) (cs cs' : Int) (fs : FSt) (h : cs ≤ 0) :
    download_file d env fn cs fs = download_file d env fn cs' fs ∧
    ∀ e, (download_file d env fn cs fs).2 = .error e → e ≠ .invalidInput := by
  refine ⟨rfl, ?_⟩
  intro e he hcon
  subst hcon
  rcases env with ⟨rn, net, pa⟩
  rcases net with _ | _ | _ | ⟨herr, len, body⟩
  all_goals try rcases body with c | w | w | w
  all_goals (
    unfold download_file at he
    dsimp only at he
    repeat' split at he)
  all_goals simp at he

/-- Witness for C8's amended theorem at `chunk_size = 0` versus the
default 8192, on the successful small download. -/
theorem c8_witness :
    download_file d0 envSmallOk none 0 fs0 = download_file d0 envSmallOk none 8192 fs0 ∧
    ∀ e, (download_file d0 envSmallOk none 0 fs0).2 = .error e → e ≠ .invalidInput :=
  c8_chunk_size_never_validated d0 envSmallOk none 0 8192 fs0 (by decide)

/-- Claim C2. If the archive at `zp` lists at least one unsafe entry,
`extract_zip` fails with the error listing exactly the offending entry
paths of the WHOLE namelist (the filter over every entry, in order), and
the set of regular files is completely unchanged: no entry was
extracted, so the (freshly created) destination directory holds no
extracted entries — even when other entries of the archive are safe, and
wherever the unsafe entries sit in the namelist. -/
theorem c2_unsafe_entry_aborts_whole_archive (d : Downloader) (fs : FSt)
    (zp ep : String) (es : Entries)
    (hz : fsGetFile fs zp = some (.zipData es))
    (hne : offending es ≠ []) :
    extract_zip d fs zp (some ep)
      = (fsMkdir fs ep, .error (.dangerousPaths (offending es))) ∧
    (fsMkdir fs ep).files = fs.files := by
  refine ⟨?_, fsMkdir_files fs ep⟩
  unfold extract_zip
  rw [hz]
  unfold extractFromContent
  have hie : (offending es).isEmpty = false := by
    cases ho : offending es with
    | nil => exact absurd ho hne
    | cons a t => rfl
  simp [hie]

/-- Witness for C2: a two-entry archive whose first entry `data/file.txt`
is safe and whose last entry `../escape.txt` is unsafe; the whole
archive is rejected with exactly the unsafe path listed, and the file
set is unchanged (the safe first entry was NOT extracted: validation of
the full namelist precedes any extraction). -/
theorem c2_witness :
    extract_zip d0 ⟨[("downloads/a.zip",
        .zipData (.consFile "data/file.txt" (.bytes [1])
          (.consFile "../escape.txt" (.bytes [2]) .nil)))], ["downloads"]⟩
      "downloads/a.zip" (some "downloads/a")
      = (fsMkdir ⟨[("downloads/a.zip",
          .zipData (.consFile "data/file.txt" (.bytes [1])
            (.consFile "../escape.txt" (.bytes [2]) .nil)))], ["downloads"]⟩
          "downloads/a",
         .error (.dangerousPaths ["../escape.txt"])) ∧
    (fsMkdir ⟨[("downloads/a.zip",
        .zipData (.consFile "data/file.txt" (.bytes [1])
          (.consFile "../escape.txt" (.bytes [2]) .nil)))], ["downloads"]⟩
        "downloads/a").files
      = [("downloads/a.zip",
          .zipData (.consFile "data/file.txt" (.bytes [1])
            (.consFile "../escape.txt" (.bytes [2]) .nil)))] := by
  have h := c2_unsafe_entry_aborts_whole_archive d0
    ⟨[("downloads/a.zip",
        .zipData (.consFile "data/file.txt" (.bytes [1])
          (.consFile "../escape.txt" (.bytes [2]) .nil)))], ["downloads"]⟩
    "downloads/a.zip" "downloads/a"
    (.consFile "data/file.txt" (.bytes [1])
      (.consFile "../escape.txt" (.bytes [2]) .nil))
    rfl (by decide)
  have ho : offending (.consFile "data/file.txt" (.bytes [1])
      (.consFile "../escape.txt" (.bytes [2]) .nil)) = ["../escape.txt"] := by decide
  rw [ho] at h
  exact ⟨h.1, h.2⟩

/-- Claim C10. On teardown, with retention policy keep (`keep_zip=True`)
nothing is deleted; with discard (`keep_zip=False`) exactly the regular
files matching `*.zip` directly in the session directory are removed —
whatever their origin, so pre-existing ones included — while every other
file (different suffix, or in a subdirectory) and every directory stays.
The last conjunct characterises the glob membership on joined paths:
`save_dir/<name>` matches iff `name` has no slash and ends in `.zip`. -/
theorem c10_teardown_deletes_direct_zip_files (d : Downloader) (fs : FSt) :
    (d.keep_zip = true → exitDownloader d fs = fs) ∧
    (d.keep_zip = false →
      (exitDownloader d fs).files
        = fs.files.filter (fun e => !(isDirectZipChild d.save_dir e.1)) ∧
      (exitDownloader d fs).dirs = fs.dirs) ∧
    (∀ nm : String,
      isDirectZipChild d.save_dir (joinPath d.save_dir nm)
        = (!(nm.data.contains '/') && revZipMatch nm.data.reverse)) := by
  refine ⟨?_, ?_, ?_⟩
  · intro h
    simp [exitDownloader, h]
  · intro h
    simp [exitDownloader, h]
  · intro nm
    unfold isDirectZipChild joinPath
    rw [show (String.mk (d.save_dir.data ++ '/' :: nm.data)).data
        = (d.save_dir.data ++ ['/']) ++ nm.data from by simp,
      dropPre_self_append]

/-- Witness for C10 with discard policy: a pre-existing `old.zip` and a
session-produced `data.zip` directly in `downloads` are both deleted;
`notes.txt` and the nested `downloads/sub/inner.zip` survive, as do all
directories. -/
theorem c10_witness :
    (exitDownloader d0 ⟨[("downloads/old.zip", .bytes [1]),
        ("downloads/notes.txt", .bytes [2]),
        ("downloads/sub/inner.zip", .bytes [3]),
        ("downloads/data.zip", .bytes [4])], ["downloads", "downloads/sub"]⟩).files
      = [("downloads/notes.txt", .bytes [2]),
         ("downloads/sub/inner.zip", .bytes [3])] ∧
    (exitDownloader d0 ⟨[("downloads/old.zip", .bytes [1]),
        ("downloads/notes.txt", .bytes [2]),
        ("downloads/sub/inner.zip", .bytes [3]),
        ("downloads/data.zip", .bytes [4])], ["downloads", "downloads/sub"]⟩).dirs
      = ["downloads", "downloads/sub"] := by
  have h := (c10_teardown_deletes_direct_zip_files d0
    ⟨[("downloads/old.zip", .bytes [1]),
      ("downloads/notes.txt", .bytes [2]),
      ("downloads/sub/inner.zip", .bytes [3]),
      ("downloads/data.zip", .bytes [4])], ["downloads", "downloads/sub"]⟩).2.1 rfl
  exact ⟨h.1.trans rfl, h.2⟩

/-! ## Supporting lemmas for C9: `".zip"`-suffix bookkeeping -/

/-- A `/` within the last four characters rules out the `".zip"` suffix,
so appending `'/' :: s` after `r` (read reversed) leaves the match on
`r` alone. -/
theorem revZipMatch_append_slash (r s : List Char) :
    revZipMatch (r ++ '/' :: s) = revZipMatch r := by
  rcases r with _ | ⟨a, _ | ⟨b, _ | ⟨c, _ | ⟨d, t⟩⟩⟩⟩
  · rcases s with _ | ⟨x, _ | ⟨y, _ | ⟨z, u⟩⟩⟩ <;> simp [revZipMatch]
  · rcases s with _ | ⟨x, _ | ⟨y, u⟩⟩ <;> simp [revZipMatch]
  · rcases s with _ | ⟨x, u⟩ <;> simp [revZipMatch]
  · simp [revZipMatch]
  · simp [revZipMatch]

/-- A joined path `ep/nm` ends in `".zip"` (case-insensitively) exactly
when the entry name `nm` does: the extractor's per-entry check on the
member name governs the suffix of the path it writes. -/
theorem zipLike_joinPath (ep nm : String) :
    zipLike (joinPath ep nm) = zipLike nm := by
  unfold zipLike joinPath zipLikeChars
  have hmk : (String.mk (ep.data ++ '/' :: nm.data)).data
      = ep.data ++ '/' :: nm.data := rfl
  rw [hmk, List.map_append, List.map_cons, List.reverse_append,
    List.reverse_cons]
  have hsl : lowerChar '/' = '/' := rfl
  rw [hsl, List.append_assoc]
  simpa using revZipMatch_append_slash ((nm.data.map lowerChar).reverse)
    ((ep.data.map lowerChar).reverse)

mutual
/-- With retention policy discard, processing one archive image never
leaves a new `".zip"`-suffixed regular file behind: every such file of
the output state was already in the input state (whether the processing
succeeded or raised). -/
theorem zipPres_content (c : Content) (zp ep : String) (fs : FSt) (p : String)
    (h : fileExists (extractFromContent false c zp ep fs).1 p = true)
    (hz : zipLike p = true) : fileExists fs p = true := by
  cases c with
  | bytes b =>
    simpa [extractFromContent] using h
  | zipData es =>
    rw [extractFromContent] at h
    by_cases hie : (offending es).isEmpty = true
    · simp [hie] at h
      rcases hE : extractEntries false es ep (fsMkdir fs ep) with ⟨fs2, r⟩
      rw [hE] at h
      cases r with
      | some e =>
        have h2 := zipPres_entries es ep (fsMkdir fs ep) p (by rw [hE]; exact h) hz
        rwa [fileExists_fsMkdir] at h2
      | none =>
        simp at h
        have h1 := (fileExists_fsUnlink_imp h).1
        have h2 := zipPres_entries es ep (fsMkdir fs ep) p (by rw [hE]; exact h1) hz
        rwa [fileExists_fsMkdir] at h2
    · simp [hie] at h
      rwa [fileExists_fsMkdir] at h
  termination_by sizeOf c

/-- With retention policy discard, the entry loop never leaves a new
`".zip"`-suffixed regular file behind. -/
theorem zipPres_entries (es : Entries) (ep : String) (fs : FSt) (p : String)
    (h : fileExists (extractEntries false es ep fs).1 p = true)
    (hz : zipLike p = true) : fileExists fs p = true := by
  cases es with
  | nil =>
    simpa [extractEntries] using h
  | consDir nm rest =>
    rw [extractEntries] at h
    have h2 := zipPres_entries rest ep (fsMkdir fs (joinPath ep nm)) p h hz
    rwa [fileExists_fsMkdir] at h2
  | consFile nm c rest =>
    rw [extractEntries] at h
    by_cases hznm : zipLike nm = true
    · simp [hznm] at h
      rcases hE : extractFromContent false c (joinPath ep nm)
          (joinPath ep (stem nm)) (fsAddFile fs (joinPath ep nm) c) with ⟨fs2, r⟩
      rw [hE] at h
      have hstep : fileExists (fsUnlink fs2 (joinPath ep nm)) p = true →
          fileExists fs p = true := by
        intro hu
        obtain ⟨h2, hne⟩ := fileExists_fsUnlink_imp hu
        have h3 := zipPres_content c (joinPath ep nm) (joinPath ep (stem nm))
          (fsAddFile fs (joinPath ep nm) c) p (by rw [hE]; exact h2) hz
        rcases fileExists_fsAddFile_imp h3 with hpq | hex
        · exact absurd hpq hne
        · exact hex
      cases r with
      | ok v =>
        simp at h
        have h4 := zipPres_entries rest ep
          (fsUnlink fs2 (joinPath ep nm)) p h hz
        exact hstep h4
      | error e =>
        simp at h
        exact hstep h
    · simp [hznm] at h
      have h2 := zipPres_entries rest ep (fsAddFile fs (joinPath ep nm) c) p h hz
      rcases fileExists_fsAddFile_imp h2 with hpq | hex
      · subst hpq
        rw [zipLike_joinPath] at hz
        exact absurd hz hznm
      · exact hex
  termination_by sizeOf es
end

/-- Claim C9. First conjunct: with retention policy discard, after the
extractor has processed a file entry whose name ends in `".zip"`
(case-insensitively) — which it recursively extracts — the nested
archive file at `ep/name` is absent, whether the nested extraction
attempt succeeded or raised (the unlink sits in a `finally`,
lines 222-224). Second conjunct: consequently, with policy discard, any
`".zip"`-suffixed regular file present after an archive image has been
processed was already there before — a successful extraction leaves no
archive files behind at any nesting level, only plain files and
directories. -/
theorem c9_nested_archive_removed_and_none_left :
    (∀ (nm : String) (c : Content) (ep : String) (fs : FSt),
      zipLike nm = true →
      fileExists (extractEntries false (.consFile nm c .nil) ep fs).1
        (joinPath ep nm) = false) ∧
    (∀ (c : Content) (zp ep : String) (fs : FSt) (p : String),
      fileExists (extractFromContent false c zp ep fs).1 p = true →
      zipLike p = true → fileExists fs p = true) := by
  constructor
  · intro nm c ep fs hz
    rw [extractEntries]
    simp only [hz, if_true]
    rcases hE : extractFromContent false c (joinPath ep nm)
        (joinPath ep (stem nm)) (fsAddFile fs (joinPath ep nm) c) with ⟨fs2, r⟩
    cases r with
    | ok v =>
      simp only [extractEntries]
      simp
      exact fileExists_fsUnlink_self fs2 (joinPath ep nm)
    | error e =>
      simp
      exact fileExists_fsUnlink_self fs2 (joinPath ep nm)
  · exact fun c zp ep fs p => zipPres_content c zp ep fs p

/-- Witness for C9: a nested archive entry `inner.zip` (upper-case
suffix variants behave the same) processed by the loop is gone from the
state afterwards. -/
theorem c9_witness :
    fileExists (extractEntries false (.consFile "inner.zip" (.zipData .nil) .nil)
        "downloads/d" ⟨[], []⟩).1 (joinPath "downloads/d" "inner.zip") = false :=
  c9_nested_archive_removed_and_none_left.1 "inner.zip" (.zipData .nil)
    "downloads/d" ⟨[], []⟩ (by decide)

/-! ## Supporting lemmas for C3: substrings survive path splitting -/

theorem isPre_hasSub {p l : List Char} (h : isPre p l = true) :
    hasSub p l = true := by
  cases l with
  | nil =>
    cases p with
    | nil => rfl
    | cons a ps => exact absurd h (by simp [isPre])
  | cons c cs => simp [hasSub, h]

theorem hasSub_nil {p : List Char} (hne : p ≠ []) : hasSub p [] = false := by
  cases p with
  | nil => exact absurd rfl hne
  | cons a ps => rfl

theorem splitSegs_ne_nil (l : List Char) : splitSegs l ≠ [] := by
  cases l with
  | nil => simp [splitSegs]
  | cons c cs =>
    by_cases hc : c = '/'
    · simp [splitSegs, hc]
    · rcases h : splitSegs cs with _ | ⟨s, ss⟩ <;> simp [splitSegs, hc, h]

/-- A slash-free prefix of `l` is a prefix of the first segment of `l`. -/
theorem isPre_headSeg : ∀ (l p : List Char), (∀ c ∈ p, c ≠ '/') →
    isPre p l = true → ∃ s ss, splitSegs l = s :: ss ∧ isPre p s = true := by
  intro l
  induction l with
  | nil =>
    intro p hp h
    cases p with
    | nil => exact ⟨[], [], rfl, rfl⟩
    | cons a ps => exact absurd h (by simp [isPre])
  | cons c cs ih =>
    intro p hp h
    cases p with
    | nil =>
      rcases hs : splitSegs (c :: cs) with _ | ⟨s, ss⟩
      · exact absurd hs (splitSegs_ne_nil _)
      · exact ⟨s, ss, rfl, rfl⟩
    | cons a ps =>
      simp only [isPre, Bool.and_eq_true, beq_iff_eq] at h
      obtain ⟨hac, hps⟩ := h
      have hc : ¬(c = '/') := by
        intro hd
        exact (hp a (by simp)) (hac.trans hd)
      obtain ⟨s, ss, hsp, hpre⟩ := ih ps (fun x hx => hp x (by simp [hx])) hps
      refine ⟨c :: s, ss, ?_, ?_⟩
      · simp [splitSegs, hc, hsp]
      · simp [isPre, hac, hpre]

/-- A nonempty slash-free substring of `l` is a substring of one of the
split segments of `l`. -/
theorem hasSub_splitSegs : ∀ (l p : List Char), (∀ c ∈ p, c ≠ '/') →
    p ≠ [] → hasSub p l = true →
    ∃ seg ∈ splitSegs l, hasSub p seg = true := by
  intro l
  induction l with
  | nil =>
    intro p hp hne h
    rw [hasSub_nil hne] at h
    exact absurd h (by simp)
  | cons c cs ih =>
    intro p hp hne h
    simp only [hasSub, Bool.or_eq_true] at h
    rcases h with h | h
    · obtain ⟨s, ss, hsp, hpre⟩ := isPre_headSeg (c :: cs) p hp h
      exact ⟨s, by rw [hsp]; exact List.mem_cons_self _ _, isPre_hasSub hpre⟩
    · obtain ⟨seg, hmem, hseg⟩ := ih p hp hne h
      by_cases hc : c = '/'
      · refine ⟨seg, ?_, hseg⟩
        simp only [splitSegs, hc]
        simp
        exact .inr hmem
      · rcases hs : splitSegs cs with _ | ⟨s, ss⟩
        · exact absurd hs (splitSegs_ne_nil _)
        · rw [hs] at hmem
          rcases List.mem_cons.mp hmem with rfl | hmem2
          · refine ⟨c :: seg, ?_, ?_⟩
            · simp [splitSegs, hc, hs]
            · simp [hasSub, hseg]
          · refine ⟨seg, ?_, hseg⟩
            simp [splitSegs, hc, hs]
            exact .inr hmem2

/-- Any part of `Path(s).parts` failing the per-part test makes the
validator return unsafe. -/
theorem unsafe_of_part {s : String} {part : List Char}
    (hmem : part ∈ posixParts s.data) (hbad : badPart part = true) :
    _is_safe_path s = false := by
  have hany : (posixParts s.data).any badPart = true :=
    List.any_eq_true.mpr ⟨part, hmem, hbad⟩
  simp [_is_safe_path, hany]

/-- Generic transfer: a nonempty slash-free pattern that cannot occur in
a lone `"."` segment and whose presence makes a part bad forces the
validator to report unsafe whenever the pattern occurs anywhere in the
path. -/
theorem unsafe_of_hasSub {s : String} {p : List Char}
    (hns : ∀ c ∈ p, c ≠ '/') (hne : p ≠ [])
    (hdot : hasSub p ['.'] = false)
    (hbad : ∀ seg, hasSub p seg = true → badPart seg = true)
    (h : hasSub p s.data = true) : _is_safe_path s = false := by
  obtain ⟨seg, hmem, hseg⟩ := hasSub_splitSegs s.data p hns hne h
  have hnn : seg ≠ [] := by
    intro he
    subst he
    rw [hasSub_nil hne] at hseg
    exact absurd hseg (by simp)
  have hnd : seg ≠ ['.'] := by
    intro he
    subst he
    rw [hdot] at hseg
    exact absurd hseg (by simp)
  have hmem2 : seg ∈ posixParts s.data := by
    unfold posixParts
    refine List.mem_append_right _ (List.mem_filter.mpr ⟨hmem, ?_⟩)
    simp [keepSeg, List.isEmpty_iff, hnn, hnd]
  exact unsafe_of_part hmem2 (hbad seg hseg)

/-- A path with a leading slash gets a root part starting with `/`. -/
theorem root_part_bad (rest : List Char) :
    ∃ part ∈ posixParts ('/' :: rest), badPart part = true := by
  have h0 : ¬(leadSlashes ('/' :: rest) = 0) := by
    simp [leadSlashes]
  by_cases h2 : leadSlashes ('/' :: rest) = 2
  · refine ⟨['/', '/'], ?_, by decide⟩
    unfold posixParts rootParts
    simp [h0, h2]
  · refine ⟨['/'], ?_, by decide⟩
    unfold posixParts rootParts
    simp [h0, h2]

/-- A path with a leading backslash keeps it at the head of its first
segment, which the validator rejects. -/
theorem backslash_part_bad (rest : List Char) :
    ∃ part ∈ posixParts ('\\' :: rest), badPart part = true := by
  obtain ⟨s, ss, hsp, hpre⟩ :=
    isPre_headSeg ('\\' :: rest) ['\\'] (by decide) (by simp [isPre])
  have hnn : s ≠ [] := by
    intro he
    subst he
    exact absurd hpre (by decide)
  have hnd : s ≠ ['.'] := by
    intro he
    subst he
    exact absurd hpre (by decide)
  refine ⟨s, ?_, by simp [badPart, hpre]⟩
  unfold posixParts
  refine List.mem_append_right _ (List.mem_filter.mpr ⟨?_, ?_⟩)
  · rw [hsp]
    exact List.mem_cons_self _ _
  · simp [keepSeg, List.isEmpty_iff, hnn, hnd]

/-- Claim C3. The validator is unsafe exactly when some part of
`Path(path).parts` starts with a backslash, starts with a forward slash,
contains `".."`, or contains `":"` (first conjunct, literally the
source's test); consequently any path containing `".."` anywhere, any
path containing a colon anywhere, and any path with a leading `/` or
leading `\` is reported unsafe, while the ordinary relative path
`data/file.txt` is reported safe. The validator is a function of its
input string — pure and deterministic by construction. -/
theorem c3_safe_path_validator (s : String) :
    (_is_safe_path s = false ↔ ∃ part ∈ posixParts s.data, badPart part = true) ∧
    (hasSub ['.', '.'] s.data = true → _is_safe_path s = false) ∧
    (hasSub [':'] s.data = true → _is_safe_path s = false) ∧
    (∀ rest, s.data = '/' :: rest → _is_safe_path s = false) ∧
    (∀ rest, s.data = '\\' :: rest → _is_safe_path s = false) ∧
    _is_safe_path "data/file.txt" = true := by
  refine ⟨?_, ?_, ?_, ?_, ?_, by decide⟩
  · simp [_is_safe_path, List.any_eq_true]
  · intro h
    exact unsafe_of_hasSub (by decide) (by decide) (by decide)
      (fun seg hs => by simp [badPart, hs]) h
  · intro h
    exact unsafe_of_hasSub (by decide) (by decide) (by decide)
      (fun seg hs => by simp [badPart, hs]) h
  · intro rest hr
    obtain ⟨part, hmem, hbad⟩ := root_part_bad rest
    exact unsafe_of_part (by rw [hr]; exact hmem) hbad
  · intro rest hr
    obtain ⟨part, hmem, hbad⟩ := backslash_part_bad rest
    exact unsafe_of_part (by rw [hr]; exact hmem) hbad

/-- Witness for C3 on concrete paths: a traversal path is rejected via
the theorem's `".."` implication, and the iff direction exhibits the
offending part list shape on a drive-letter path. -/
theorem c3_witness :
    _is_safe_path "a/../b" = false ∧ _is_safe_path "c:/drive" = false :=
  ⟨(c3_safe_path_validator "a/../b").2.1 (by decide),
   (c3_safe_path_validator "c:/drive").2.2.1 (by decide)⟩

end XFetcher
